import Mathlib

/-!
Verification of the AmpliPi board-communication core (`amplipi/rt.py` and
`amplipi/hw.py`) against its natural-language specification.

The Python source is shallowly embedded: pure register arithmetic becomes
Lean functions on `Nat`/`Int`; the stateful `_Preamps` bus object becomes an
explicit `BusState` threaded through each operation; Python exceptions
(`AssertionError`, `IndexError`, `TypeError`, `ValueError`) become the
`.error` branch of `Except Unit`; every I2C bus write performed on real
hardware is recorded in an explicit write trace so that claims about "no
partial register writes" and "a standby write is issued" are about the trace.
Python values whose *runtime type* matters to the validation code
(`type(x) == bool`, `isinstance(x, int)`, `x is None`) are embedded as the
inductive `PyVal`.
-/

namespace Amplipi

/-! ## Register map and device addresses (`rt.py` `_REG_ADDRS`, `_DEV_ADDRS`) -/

def SRC_AD : Nat := 0x00
def CH123_SRC : Nat := 0x01
def CH456_SRC : Nat := 0x02
def MUTE : Nat := 0x03
def STANDBY : Nat := 0x04
def CH1_ATTEN : Nat := 0x05

/-- `_DEV_ADDRS`: the 15 possible preamp bus addresses, `(hop+1)*8`. -/
def DEV_ADDRS : List Nat :=
  [0x08, 0x10, 0x18, 0x20, 0x28, 0x30, 0x38, 0x40,
   0x48, 0x50, 0x58, 0x60, 0x68, 0x70, 0x78]

/-! ## Embedded Python values

Only the runtime types that the validation code distinguishes are modelled:
`int`, `bool` (a distinct type in `type(x) == int` checks but an `int` for
`isinstance(x, int)`), and `None`. -/

inductive PyVal : Type
  | pyInt (n : Int)
  | pyBool (b : Bool)
  | pyNone
deriving DecidableEq, Repr

/-- Python `type(x) == bool` (also `isinstance(x, bool)`: `bool` cannot be
subclassed, so the two agree). -/
def typeIsBool : PyVal → Bool
  | .pyBool _ => true
  | _ => false

/-- Python `isinstance(x, bool)` — same predicate as `typeIsBool`. -/
def isinstanceBool : PyVal → Bool
  | .pyBool _ => true
  | _ => false

/-- Python `type(x) == int` — `True` has type `bool`, not `int`. -/
def typeIsInt : PyVal → Bool
  | .pyInt _ => true
  | _ => false

/-- Python `isinstance(x, int)` — `bool` is a subclass of `int`. -/
def isinstanceInt : PyVal → Bool
  | .pyInt _ => true
  | .pyBool _ => true
  | _ => false

/-- Python `x == None` and `x is None` (no custom `__eq__` here). -/
def eqNone : PyVal → Bool
  | .pyNone => true
  | _ => false

/-- Python `x == False`, as used by `False not in mutes`: `False == False`
and `0 == False` both hold in Python. -/
def pyEqFalse : PyVal → Bool
  | .pyBool b => !b
  | .pyInt n => n == 0
  | .pyNone => false

/-- Truthiness of an embedded value (`if mutes[...]:`). -/
def pyTruthy : PyVal → Bool
  | .pyBool b => b
  | .pyInt n => n != 0
  | .pyNone => false

/-- Python list indexing `l[i]`: negative indices count from the end;
`none` models an `IndexError`. -/
def pyIdx {α : Type} (l : List α) (i : Int) : Option α :=
  let j := if i < 0 then i + l.length else i
  if 0 ≤ j then l.get? j.toNat else none

/-- Python `x << k` on an embedded value: ints and bools shift
(`n << k = n * 2^k`, also for negative `n`), `None` raises `TypeError`. -/
def pyShl (v : PyVal) (k : Nat) : Except Unit Int :=
  match v with
  | .pyInt n => .ok (n * (2 : Int) ^ k)
  | .pyBool b => .ok ((if b then (1 : Int) else 0) * (2 : Int) ^ k)
  | .pyNone => .error ()

/-! ## The `_Preamps` bus object (`rt.py`)

`preamps` is Python's insertion-ordered dict from device address to the
11-entry shadow register list; `mock` is `bus is None`. A `Write` records
one real I2C write `(addr, reg, data)` done on the hardware bus; in mock
mode no bus writes happen. -/

/-- One I2C register write on the hardware bus: `(addr, reg, data)`. -/
abbrev Write : Type := Nat × Nat × Int

structure BusState : Type where
  mock : Bool
  preamps : List (Nat × List Int)
deriving DecidableEq, Repr

/-- `new_preamp`: initial shadow register values of a discovered preamp. -/
def defaultRegs : List Int :=
  [0x0F, 0x00, 0x00, 0x3F, 0x00, 0x4F, 0x4F, 0x4F, 0x4F, 0x4F, 0x4F]

/-- Ordered-dict lookup. -/
def lookupA : List (Nat × List Int) → Nat → Option (List Int)
  | [], _ => none
  | (k, v) :: rest, key => if k = key then some v else lookupA rest key

/-- Ordered-dict update of an existing key (insertion order preserved). -/
def setAssoc : List (Nat × List Int) → Nat → List Int → List (Nat × List Int)
  | [], _, _ => []
  | (k, v) :: rest, key, val =>
    if k = key then (k, val) :: rest else (k, v) :: setAssoc rest key val

/-- `_Preamps.write_byte_data`. Asserts the address is a valid device
address; if the preamp is unknown it is created in mock mode but silently
skipped on hardware; otherwise the shadow register is updated and, on
hardware, the byte is written on the I2C bus (recorded in the trace).
An out-of-range register index is an `IndexError`. -/
def write_byte_data (st : BusState) (addr reg : Nat) (data : Int) :
    Except Unit (BusState × List Write) :=
  if addr ∈ DEV_ADDRS then
    match lookupA st.preamps addr with
    | some regs =>
      if reg < regs.length then
        .ok ({ st with preamps := setAssoc st.preamps addr (regs.set reg data) },
             if st.mock then [] else [(addr, reg, data)])
      else .error ()
    | none =>
      if st.mock then
        if reg < defaultRegs.length then
          .ok ({ st with preamps := st.preamps ++ [(addr, defaultRegs.set reg data)] }, [])
        else .error ()
      else .ok (st, [])
  else .error ()

/-! ## The `Mock` runtime (`rt.py` class `Mock`)

Each method is a chain of `assert`s followed by `return True`; it is embedded
as a `Bool`: `true` means all asserts pass and the method returns `True`,
`false` means an `AssertionError`. No state is touched and no I/O happens. -/

/-- `Mock.update_sources`. -/
def mockUpdateSources (digital : List PyVal) : Bool :=
  digital.length == 4 && digital.all isinstanceBool

/-- `Mock.update_zone_mutes` — `zone` is ignored; length must be a positive
multiple of 6 and every entry of every 6-zone window must be a `bool`. -/
def mockUpdateZoneMutes (_zone : Int) (mutes : List PyVal) : Bool :=
  6 ≤ mutes.length &&
  mutes.length == (mutes.length / 6) * 6 &&
  (List.range (mutes.length / 6)).all (fun preamp =>
    (List.range 6).all (fun zid =>
      match mutes.get? (preamp * 6 + zid) with
      | some v => isinstanceBool v
      | none => false))

/-- `Mock.update_zone_sources` — each entry must be an `int` (`bool`s count,
via `isinstance`) or `None`. -/
def mockUpdateZoneSources (_zone : Int) (sources : List PyVal) : Bool :=
  6 ≤ sources.length &&
  sources.length == (sources.length / 6) * 6 &&
  (List.range (sources.length / 6)).all (fun preamp =>
    (List.range 6).all (fun zid =>
      match sources.get? (preamp * 6 + zid) with
      | some v => isinstanceInt v || eqNone v
      | none => false))

/-- `Mock.update_zone_vol` — `preamp = zone // 6` may be up to 15 here. -/
def mockUpdateZoneVol (zone vol : Int) : Bool :=
  let preamp := Int.ediv zone 6
  decide (0 ≤ zone) && decide (0 ≤ preamp) && decide (preamp ≤ 15) &&
  decide (vol ≤ 0) && decide (-79 ≤ vol)

/-- `Mock.exists`. -/
def mockExists (_zone : Int) : Bool := true

/-! ## The `Rpi` runtime (`rt.py` class `Rpi`)

State is the `_Preamps` bus plus the `_all_muted` flag (initialised `True`).
Each method returns `.ok (state', write-trace)` or `.error ()` for a raised
exception; every trace entry is a real I2C bus write in program order. -/

structure RpiState : Type where
  bus : BusState
  allMuted : Bool
deriving DecidableEq, Repr

/-- `False not in mutes` (Python `==`-based membership, so `0` counts as
`False`). -/
def allMutedOf (mutes : List PyVal) : Bool :=
  !(mutes.any pyEqFalse)

/-- The loop of `Rpi.update_zone_mutes` building `mute_cfg`: for each
channel `z` of the addressed preamp, fetch `mutes[preamp*6+z]`
(`IndexError` possible), assert it is a `bool`, and OR in its bit. -/
def muteCfgLoop (mutes : List PyVal) (preamp : Int) : List Nat → Nat → Except Unit Nat
  | [], cfg => .ok cfg
  | z :: rest, cfg =>
    match pyIdx mutes (preamp * 6 + z) with
    | some (.pyBool b) =>
      muteCfgLoop mutes preamp rest (if b then cfg ||| (1 <<< z) else cfg)
    | some _ => .error ()
    | none => .error ()

/-- The per-preamp standby loop of `Rpi.update_zone_mutes`: write `v` to the
`STANDBY` register of every preamp in `keys` (a snapshot of
`self._bus.preamps.keys()`), in order. -/
def standbyLoop (bus : BusState) (v : Int) : List Nat → Except Unit (BusState × List Write)
  | [] => .ok (bus, [])
  | k :: rest =>
    match write_byte_data bus k STANDBY v with
    | .ok (b1, w1) =>
      match standbyLoop b1 v rest with
      | .ok (b2, w2) => .ok (b2, w1 ++ w2)
      | .error e => .error e
    | .error e => .error e

/-- `Rpi.update_zone_mutes`. -/
def rpiUpdateZoneMutes (st : RpiState) (zone : Int) (mutes : List PyVal) :
    Except Unit (RpiState × List Write) :=
  if 6 ≤ mutes.length then
    if mutes.length = (mutes.length / 6) * 6 then
      let preamp := Int.ediv zone 6
      match muteCfgLoop mutes preamp [0, 1, 2, 3, 4, 5] 0x00 with
      | .ok mute_cfg =>
        match pyIdx DEV_ADDRS preamp with
        | some addr =>
          match write_byte_data st.bus addr MUTE (mute_cfg : Int) with
          | .ok (b1, w1) =>
            let all_muted := allMutedOf mutes
            if st.allMuted ≠ all_muted then
              match standbyLoop b1 (if all_muted then 0x00 else 0x3F)
                  (b1.preamps.map Prod.fst) with
              | .ok (b2, w2) => .ok (⟨b2, all_muted⟩, w1 ++ w2)
              | .error e => .error e
            else .ok ({ st with bus := b1 }, w1)
          | .error e => .error e
        | none => .error ()
      | .error e => .error e
    else .error ()
  else .error ()

/-- The loop of `Rpi.update_zone_sources` building `source_cfg123` and
`source_cfg456`: fetch `sources[preamp*6+z]`, assert `type(src) == int or
src == None`, then OR `src << (2·channel)` into the right config byte
(`None` raises `TypeError` at the shift). -/
def srcCfgLoop (sources : List PyVal) (preamp : Int) :
    List Nat → Int → Int → Except Unit (Int × Int)
  | [], c123, c456 => .ok (c123, c456)
  | z :: rest, c123, c456 =>
    match pyIdx sources (preamp * 6 + z) with
    | some src =>
      if typeIsInt src || eqNone src then
        if z < 3 then
          match pyShl src (z * 2) with
          | .ok sh => srcCfgLoop sources preamp rest (Int.lor c123 sh) c456
          | .error e => .error e
        else
          match pyShl src ((z - 3) * 2) with
          | .ok sh => srcCfgLoop sources preamp rest c123 (Int.lor c456 sh)
          | .error e => .error e
      else .error ()
    | none => .error ()

/-- `Rpi.update_zone_sources`. -/
def rpiUpdateZoneSources (st : RpiState) (zone : Int) (sources : List PyVal) :
    Except Unit (RpiState × List Write) :=
  if 6 ≤ sources.length then
    if sources.length = (sources.length / 6) * 6 then
      let preamp := Int.ediv zone 6
      match srcCfgLoop sources preamp [0, 1, 2, 3, 4, 5] 0x00 0x00 with
      | .ok (c123, c456) =>
        match pyIdx DEV_ADDRS preamp with
        | some addr =>
          match write_byte_data st.bus addr CH123_SRC c123 with
          | .ok (b1, w1) =>
            match write_byte_data b1 addr CH456_SRC c456 with
            | .ok (b2, w2) => .ok ({ st with bus := b2 }, w1 ++ w2)
            | .error e => .error e
          | .error e => .error e
        | none => .error ()
      | .error e => .error e
    else .error ()
  else .error ()

/-- `Rpi.update_zone_vol` — note `int(zone / 6)` truncates toward zero
(`Int.tdiv`), and the assert `preamp < 15` rejects hop 15. -/
def rpiUpdateZoneVol (st : RpiState) (zone vol : Int) :
    Except Unit (RpiState × List Write) :=
  let preamp := Int.tdiv zone 6
  if 0 ≤ zone then
    if preamp < 15 then
      if vol ≤ 0 ∧ -79 ≤ vol then
        let chan := zone - preamp * 6
        let chan_reg := (CH1_ATTEN : Int) + chan
        match pyIdx DEV_ADDRS preamp with
        | some addr =>
          match write_byte_data st.bus addr chan_reg.toNat |vol| with
          | .ok (b1, w1) => .ok ({ st with bus := b1 }, w1)
          | .error e => .error e
        | none => .error ()
      else .error ()
    else .error ()
  else .error ()

/-- The loop of `Rpi.update_sources` packing the four digital flags into one
byte, bit `i` set when `digital[i]` is truthy. -/
def digitalBits (digital : List PyVal) : List Nat → Nat → Except Unit Nat
  | [], out => .ok out
  | i :: rest, out =>
    match pyIdx digital i with
    | some v =>
      digitalBits digital rest (if pyTruthy v then out ||| (1 <<< i) else out)
    | none => .error ()

/-- `Rpi.update_sources`: validates four `bool`s then writes the packed byte
to `SRC_AD` of the master preamp (`_DEV_ADDRS[0] = 0x08`) only. -/
def rpiUpdateSources (st : RpiState) (digital : List PyVal) :
    Except Unit (RpiState × List Write) :=
  if digital.length = 4 then
    if digital.all typeIsBool then
      match digitalBits digital [0, 1, 2, 3] 0x00 with
      | .ok output =>
        match write_byte_data st.bus 0x08 SRC_AD (output : Int) with
        | .ok (b1, w1) => .ok ({ st with bus := b1 }, w1)
        | .error e => .error e
      | .error e => .error e
    else .error ()
  else .error ()

/-- `Rpi.exists`: `self._bus` is a `_Preamps` object and hence always truthy,
so this tests whether the *hop index* `zone // 6` is a key of the
`preamps` dict — whose keys are device addresses `0x08, 0x10, ...`. -/
def rpiExists (st : RpiState) (zone : Int) : Bool :=
  let preamp := Int.ediv zone 6
  st.bus.preamps.any (fun kv => (kv.1 : Int) == preamp)

/-! ## The `hw.py` layer: `Preamp` and `Preamps`

Here the bus and GPIO side effects are recorded as an explicit event trace
`Ev`. Availability of each hop and the bytes returned by register reads are
environment inputs, passed as oracles (`av : Nat → Bool` per hop,
`regRead : addr → reg → byte`); the master's response to the single
post-reset probe inside `reset` is the `masterUp` input. -/

def VERSION_MAJOR : Nat := 0xFA
def VERSION_MINOR : Nat := 0xFB
def GIT_HASH_27_20 : Nat := 0xFC
def GIT_HASH_19_12 : Nat := 0xFD
def GIT_HASH_11_04 : Nat := 0xFE
def GIT_HASH_STATUS : Nat := 0xFF
def EXPANSION : Nat := 0x0F

def MAX_UNITS : Nat := 6

/-- `Preamps.BAUD_RATES`: the fixed whitelist of 17 standard rates. -/
def BAUD_RATES : List Nat :=
  [1200, 1800, 2400, 4800, 9600, 19200,
   38400, 57600, 115200, 128000, 230400, 256000,
   460800, 500000, 576000, 921600, 1000000]

/-- The fixed 4-byte UART address-assignment frame `0x41 0x10 0x0D 0x0A`. -/
def addrFrame : List Nat := [0x41, 0x10, 0x0D, 0x0A]

/-- Observable hardware events of the `hw.py` layer, in program order. -/
inductive Ev : Type
  | gpioReset (bootloader : Bool)
  | uart (baud : Nat) (bytes : List Nat)
  | i2cWrite (addr reg data : Nat)
  | i2cRead (addr reg : Nat)
  | flashRun (baud : Nat) (filepath : String)
deriving DecidableEq, Repr

/-- A `Preamp` handle: unit `n` lives at bus address `(n+1)*8`. -/
structure PreampH : Type where
  addr : Nat
deriving DecidableEq, Repr

/-- `Preamp.__init__`. -/
def mkPreamp (unit : Nat) : PreampH := ⟨(unit + 1) * 0x8⟩

/-- `Preamp.available` probes with a discarded write to `VERSION_MAJOR`;
this is the bus event it causes (its result comes from the oracle). -/
def availEv (addr : Nat) : Ev := .i2cWrite addr VERSION_MAJOR 0

/-- `Preamp.reset_expander`: write the 2-bit control code, then set the run
bit. -/
def reset_expander (p : PreampH) (bootloader : Bool) : List Ev :=
  let reg_val := if bootloader then 2 else 0
  [.i2cWrite p.addr EXPANSION reg_val, .i2cWrite p.addr EXPANSION (reg_val ||| 1)]

/-- `Preamp.uart_passthrough`: read-modify-write of the `EXPANSION`
register. -/
def uart_passthrough (p : PreampH) (pass : Bool) (regRead : Nat → Nat → Nat) : List Ev :=
  let reg_val := regRead p.addr EXPANSION
  let reg_val' := if pass then reg_val ||| 12 else reg_val &&& 3
  [.i2cRead p.addr EXPANSION, .i2cWrite p.addr EXPANSION reg_val']

/-- The 28-bit build hash reconstruction of `Preamp.read_version`:
`(GIT_HASH_27_20 << 20) | (GIT_HASH_19_12 << 12) | (GIT_HASH_11_04 << 4) |
(GIT_HASH_STATUS >> 4)`. -/
def read_version_hash (fc fd fe ff : Nat) : Nat :=
  (((fc <<< 20) ||| (fd <<< 12)) ||| (fe <<< 4)) ||| (ff >>> 4)

/-- The dirty flag of `Preamp.read_version`: bit 0 of `GIT_HASH_STATUS`. -/
def read_version_dirty (ff : Nat) : Bool :=
  (ff &&& 0x01) != 0

/-- `Preamp.read_version`: six register reads, returning
`(major, minor, git_hash, dirty)` and the read events. -/
def read_versionP (p : PreampH) (regRead : Nat → Nat → Nat) :
    (Nat × Nat × Nat × Bool) × List Ev :=
  let major := regRead p.addr VERSION_MAJOR
  let minor := regRead p.addr VERSION_MINOR
  let git_hash := read_version_hash (regRead p.addr GIT_HASH_27_20)
    (regRead p.addr GIT_HASH_19_12) (regRead p.addr GIT_HASH_11_04)
    (regRead p.addr GIT_HASH_STATUS)
  let dirty := read_version_dirty (regRead p.addr GIT_HASH_STATUS)
  ((major, minor, git_hash, dirty),
   [.i2cRead p.addr VERSION_MAJOR, .i2cRead p.addr VERSION_MINOR,
    .i2cRead p.addr GIT_HASH_27_20, .i2cRead p.addr GIT_HASH_19_12,
    .i2cRead p.addr GIT_HASH_11_04, .i2cRead p.addr GIT_HASH_STATUS])

/-- `Preamps` state: the ordered list of discovered preamps. -/
structure PreampsS : Type where
  preamps : List PreampH
deriving DecidableEq, Repr

/-- The loop of `Preamps.enumerate` from hop `i` with `fuel` hops left:
probe each hop in increasing order, stop at the first non-responder.
Returns the discovered handles and the probe events. -/
def enumFrom (av : Nat → Bool) : Nat → Nat → List PreampH × List Ev
  | _, 0 => ([], [])
  | i, fuel + 1 =>
    if av i then
      let (ps, evs) := enumFrom av (i + 1) fuel
      (mkPreamp i :: ps, availEv (mkPreamp i).addr :: evs)
    else ([], [availEv (mkPreamp i).addr])

/-- `Preamps.enumerate`: rebuild `self.preamps` from scratch, probing hops
`0 .. MAX_UNITS-1`. -/
def enumerateP (av : Nat → Bool) : List PreampH × List Ev :=
  enumFrom av 0 MAX_UNITS

/-- `Preamps.reset`. For `unit = 0`: GPIO reset pulse (sampling BOOT0), and
if entering the bootloader return immediately; otherwise send the UART
address frame at 115200 baud, probe the master, fall back once (second
reset + frame at 9600 baud) when it does not respond, then re-enumerate.
For `unit > 0`: delegate to `reset_expander` of `self.preamps[unit-1]`
(an `IndexError` if absent), with no re-enumeration. -/
def resetP (st : PreampsS) (unit : Nat) (bootloader : Bool) (masterUp : Bool)
    (av : Nat → Bool) : Except Unit (PreampsS × List Ev) :=
  if unit = 0 then
    if bootloader then .ok (st, [.gpioReset bootloader])
    else
      let evs1 := [Ev.gpioReset bootloader, .uart 115200 addrFrame, availEv (mkPreamp 0).addr]
      let evs2 := if masterUp then evs1
        else evs1 ++ [Ev.gpioReset false, .uart 9600 addrFrame]
      let pe := enumerateP av
      .ok (⟨pe.1⟩, evs2 ++ pe.2)
  else
    match st.preamps.get? (unit - 1) with
    | some p => .ok (st, reset_expander p bootloader)
    | none => .error ()

/-- The passthrough loop of `Preamps.flash`: `for p in range(unit):
self.preamps[p].uart_passthrough(True)`. -/
def passLoop (st : PreampsS) (regRead : Nat → Nat → Nat) : List Nat → Except Unit (List Ev)
  | [] => .ok []
  | i :: rest =>
    match st.preamps.get? i with
    | some p =>
      match passLoop st regRead rest with
      | .ok evs => .ok (uart_passthrough p true regRead ++ evs)
      | .error e => .error e
    | none => .error ()

/-- The per-unit loop of `Preamps.flash`: reset the unit into the
bootloader, set UART passthrough on all earlier units, run the external
`stm32flash` transport (`flashOk = false` models a `CalledProcessError`,
fatal for the sequence), reset the whole chain back to run mode, and read
back the flashed unit's version. -/
def flashLoop (filepath : String) (baud : Nat) (masterUp : Bool) (av : Nat → Bool)
    (regRead : Nat → Nat → Nat) (flashOk : Bool) :
    PreampsS → List Nat → Except Unit (PreampsS × List Ev)
  | st, [] => .ok (st, [])
  | st, unit :: rest =>
    match resetP st unit true masterUp av with
    | .ok (st1, e1) =>
      match passLoop st1 regRead (List.range unit) with
      | .ok e2 =>
        if flashOk then
          match resetP st1 0 false masterUp av with
          | .ok (st2, e4) =>
            match st2.preamps.get? unit with
            | some p =>
              let e5 := (read_versionP p regRead).2
              match flashLoop filepath baud masterUp av regRead flashOk st2 rest with
              | .ok (st3, e6) =>
                .ok (st3, e1 ++ e2 ++ [Ev.flashRun baud filepath] ++ e4 ++ e5 ++ e6)
              | .error e => .error e
            | none => .error ()
          | .error e => .error e
        else .error ()
      | .error e => .error e
    | .error e => .error e

/-- `Preamps.flash`: reject a baud rate outside `BAUD_RATES` before any
other action; flash `len(self.preamps)` units, or one unit (the master)
when none were discovered. -/
def flashP (st : PreampsS) (filepath : String) (baud : Nat) (masterUp : Bool)
    (av : Nat → Bool) (regRead : Nat → Nat → Nat) (flashOk : Bool) :
    Except Unit (PreampsS × List Ev) :=
  if baud ∈ BAUD_RATES then
    let num_units := if st.preamps.length = 0 then 1 else st.preamps.length
    flashLoop filepath baud masterUp av regRead flashOk st (List.range num_units)
  else .error ()

/-! ## Auxiliary definitions used by the statements -/

/-- Well-formedness of a bus state: every shadow preamp sits at a valid
device address and carries the 11 registers `new_preamp` creates. Holds for
every state reachable from `_Preamps.__init__`. -/
abbrev WFbus (st : BusState) : Prop :=
  ∀ kv ∈ st.preamps, kv.1 ∈ DEV_ADDRS ∧ kv.2.length = 11

/-- The write targets a `STANDBY` register. -/
def isStandbyW (w : Write) : Bool := w.2.1 == STANDBY

/-- Channel `z` of the board at hop `preamp` holds a source id that the
`update_zone_sources` validation rejects: the entry is missing
(`IndexError`) or is neither `type(..) == int` nor `== None`. -/
def badSrcAt (sources : List PyVal) (preamp : Int) (z : Nat) : Bool :=
  match pyIdx sources (preamp * 6 + z) with
  | some v => !(typeIsInt v || eqNone v)
  | none => true

/-- The claimed 4-register decomposition of a 28-bit build hash plus dirty
bit, inverse to the layout `read_version` reads back:
bits 27–20, 19–12, 11–4, and a status byte holding bits 3–0 in its high
nibble and the dirty flag in bit 0. -/
def encodeVersionRegs (h : Nat) (d : Bool) : Nat × Nat × Nat × Nat :=
  (h >>> 20, (h >>> 12) % 256, (h >>> 4) % 256,
   ((h % 16) <<< 4) ||| (if d then 1 else 0))

/-- Hardware-mode bus with the master board discovered. -/
def busOneBoard : BusState := ⟨false, [(0x08, defaultRegs)]⟩

/-- Hardware-mode bus with boards at hops 0 and 1 discovered. -/
def busTwoBoards : BusState := ⟨false, [(0x08, defaultRegs), (0x10, defaultRegs)]⟩

/-- Mock-mode bus with no shadow preamps yet. -/
def busMockEmpty : BusState := ⟨true, []⟩

/-- `Rpi` runtime state over `busOneBoard`, all zones muted (startup). -/
def rpiOneBoard : RpiState := ⟨busOneBoard, true⟩

/-- `Rpi` runtime state over `busTwoBoards`, all zones muted (startup). -/
def rpiTwoBoards : RpiState := ⟨busTwoBoards, true⟩

/-! ## Shared lemmas -/

/-- Bitwise OR with disjoint ranges is addition: when `b` fits in the low
`k` bits, `(a * 2^k) ||| b = a * 2^k + b`. -/
theorem mul_pow_lor_eq_add : ∀ (k a b : ℕ), b < 2 ^ k → a * 2 ^ k ||| b = a * 2 ^ k + b := by
  intro k
  induction k with
  | zero =>
    intro a b hb
    interval_cases b
    simp
  | succ k ih =>
    intro a b hb
    have hdecomp := Nat.bodd_add_div2 b
    have hdiv : b.div2 = b / 2 := Nat.div2_val b
    have hb2 : b.div2 < 2 ^ k := by
      rw [hdiv]
      rw [pow_succ] at hb
      omega
    have h1 : a * 2 ^ (k + 1) = Nat.bit false (a * 2 ^ k) := by
      simp only [Nat.bit_val, Bool.toNat_false, pow_succ]
      ring
    have h2 : b = Nat.bit b.bodd b.div2 := (Nat.bit_decomp b).symm
    calc a * 2 ^ (k + 1) ||| b
        = Nat.bit false (a * 2 ^ k) ||| Nat.bit b.bodd b.div2 := by rw [← h1, ← h2]
      _ = Nat.bit (false || b.bodd) (a * 2 ^ k ||| b.div2) := Nat.lor_bit _ _ _ _
      _ = Nat.bit b.bodd (a * 2 ^ k + b.div2) := by rw [Bool.false_or, ih _ _ hb2]
      _ = a * 2 ^ (k + 1) + b := by
          have hx : a * 2 ^ (k + 1) = 2 * (a * 2 ^ k) := by ring
          rw [Nat.bit_val, hx]
          cases hB : b.bodd <;> simp only [hB, Bool.toNat_false, Bool.toNat_true] at hdecomp ⊢ <;>
            omega

/-! ## C1 — `exists` presence check -/

/-- C1: the claim says `exists(z)` is true iff the board owning zone `z`
(hop `z div 6`) is present, in particular false once the hop is at or
beyond the chain length. The code instead tests the *hop index* against
the `preamps` dict, whose keys are *device addresses*: with exactly the
master discovered (key `0x08`), `exists(0)` evaluates to `False` even
though hop 0 is present, and `exists(48)` (hop 8, beyond the chain)
evaluates to `True` because `48 // 6 = 8 = 0x08`. -/
theorem C1_exists_confuses_hop_with_address :
    rpiExists rpiOneBoard 0 = false ∧ rpiExists rpiOneBoard 48 = true := by
  decide

/-! ## C6 — `read_version` build-hash round trip -/

/-- `read_version_hash` as plain arithmetic: the three shifted bytes and
the high nibble of the status byte occupy disjoint bit ranges, so the ORs
are additions. -/
theorem read_version_hash_arith (fc fd fe ff : ℕ) (h2 : fd < 256) (h3 : fe < 256)
    (h4 : ff < 256) :
    read_version_hash fc fd fe ff = fc * 2 ^ 20 + fd * 2 ^ 12 + fe * 2 ^ 4 + ff / 2 ^ 4 := by
  unfold read_version_hash
  rw [Nat.shiftLeft_eq, Nat.shiftLeft_eq, Nat.shiftLeft_eq, Nat.shiftRight_eq_div_pow]
  rw [mul_pow_lor_eq_add 20 fc (fd * 2 ^ 12) (by omega)]
  have e2 : fc * 2 ^ 20 + fd * 2 ^ 12 = (fc * 2 ^ 8 + fd) * 2 ^ 12 := by ring
  rw [e2, mul_pow_lor_eq_add 12 _ (fe * 2 ^ 4) (by omega)]
  have e3 : (fc * 2 ^ 8 + fd) * 2 ^ 12 + fe * 2 ^ 4 =
      (fc * 2 ^ 16 + fd * 2 ^ 8 + fe) * 2 ^ 4 := by ring
  rw [e3, mul_pow_lor_eq_add 4 _ (ff / 2 ^ 4) (by omega)]
  try ring

/-- C6: `read_version` reconstructs the 28-bit build hash as
`(GIT_HASH_27_20 << 20) | (GIT_HASH_19_12 << 12) | (GIT_HASH_11_04 << 4) |
(GIT_HASH_STATUS >> 4)` and the dirty flag as bit 0 of `GIT_HASH_STATUS`;
decomposing any 28-bit hash `h` and dirty bit `d` into the four 8-bit
registers by that layout and reading them back yields exactly `(h, d)`. -/
theorem C6_read_version_round_trip (h : ℕ) (d : Bool) (hh : h < 2 ^ 28) :
    read_version_hash (encodeVersionRegs h d).1 (encodeVersionRegs h d).2.1
      (encodeVersionRegs h d).2.2.1 (encodeVersionRegs h d).2.2.2 = h ∧
    read_version_dirty (encodeVersionRegs h d).2.2.2 = d := by
  unfold encodeVersionRegs read_version_dirty
  simp only
  have hdb : (if d then 1 else 0) < 2 ^ 4 := by cases d <;> simp
  rw [Nat.shiftLeft_eq (h % 16) 4, mul_pow_lor_eq_add 4 (h % 16) _ hdb]
  have hffb : h % 16 * 2 ^ 4 + (if d then 1 else 0) < 256 := by cases d <;> simp <;> omega
  rw [read_version_hash_arith _ _ _ _ (Nat.mod_lt _ (by norm_num)) (Nat.mod_lt _ (by norm_num))
    hffb]
  rw [Nat.shiftRight_eq_div_pow, Nat.shiftRight_eq_div_pow, Nat.shiftRight_eq_div_pow,
    Nat.and_one_is_mod]
  constructor
  · cases d <;> simp <;> omega
  · cases d <;> simp <;> omega

/-- Witness for C6 at the concrete hash `0xABCDEF1` with the dirty bit
set. -/
theorem C6_read_version_round_trip_witness :
    (0xABCDEF1 : ℕ) < 2 ^ 28 ∧
    (read_version_hash (encodeVersionRegs 0xABCDEF1 true).1
        (encodeVersionRegs 0xABCDEF1 true).2.1
        (encodeVersionRegs 0xABCDEF1 true).2.2.1
        (encodeVersionRegs 0xABCDEF1 true).2.2.2 = 0xABCDEF1 ∧
      read_version_dirty (encodeVersionRegs 0xABCDEF1 true).2.2.2 = true) :=
  ⟨by norm_num, C6_read_version_round_trip 0xABCDEF1 true (by norm_num)⟩

/-! ## C10 — `write_byte_data` on an undiscovered preamp -/

/-- C10: a `write_byte_data` call at a valid device address whose preamp
was not discovered returns without any bus write and without raising in
hardware mode (the setter above it still reports success while nothing is
written); in mock mode the same call creates a new shadow preamp with the
default register values and records the write in it. -/
theorem C10_write_byte_data_absent (st : BusState) (addr reg : Nat) (data : Int)
    (ha : addr ∈ DEV_ADDRS) (habs : lookupA st.preamps addr = none) :
    (st.mock = false → write_byte_data st addr reg data = .ok (st, [])) ∧
    (st.mock = true → reg < 11 →
      write_byte_data st addr reg data =
        .ok ({ st with preamps := st.preamps ++ [(addr, defaultRegs.set reg data)] }, [])) := by
  constructor
  · intro hm
    simp only [write_byte_data, if_pos ha, habs, hm]
    rfl
  · intro hm hr
    have hr' : reg < defaultRegs.length := by simpa [defaultRegs] using hr
    simp only [write_byte_data, if_pos ha, habs, hm, if_pos hr']
    simp

/-- Witness for C10: address `0x10` (hop 1) is absent from `busOneBoard`
(hardware) and from `busMockEmpty` (mock). -/
theorem C10_write_byte_data_absent_witness :
    (write_byte_data busOneBoard 0x10 MUTE 0 = .ok (busOneBoard, [])) ∧
    (write_byte_data busMockEmpty 0x10 MUTE 5 =
      .ok ({ busMockEmpty with
              preamps := busMockEmpty.preamps ++ [(0x10, defaultRegs.set MUTE 5)] }, [])) :=
  ⟨(C10_write_byte_data_absent busOneBoard 0x10 MUTE 0 (by decide) (by decide)).1 rfl,
   (C10_write_byte_data_absent busMockEmpty 0x10 MUTE 5 (by decide) (by decide)).2 rfl
     (by decide)⟩

/-! ## C4 — `enumerate` builds a gap-free chain -/

/-- The discovery loop, specified: from hop `i` with `fuel` probes left,
the discovered handles are exactly the probed hops that responded, in
increasing order starting at `i`, stopping at the first non-responder or
when the fuel (remaining unit budget) runs out. -/
theorem enumFrom_spec (av : Nat → Bool) (fuel i : Nat) :
    (∀ j, (hj : j < (enumFrom av i fuel).1.length) →
        (enumFrom av i fuel).1.get ⟨j, hj⟩ = mkPreamp (i + j) ∧ av (i + j) = true) ∧
    ((enumFrom av i fuel).1.length = fuel ∨ av (i + (enumFrom av i fuel).1.length) = false) := by
  induction fuel generalizing i with
  | zero => exact ⟨fun j hj => absurd hj (by simp [enumFrom]), Or.inl (by simp [enumFrom])⟩
  | succ fuel ih =>
    by_cases hav : av i
    · have hrec := ih (i + 1)
      constructor
      · intro j hj
        match j with
        | 0 => simpa [enumFrom, hav] using ⟨rfl, hav⟩
        | j + 1 =>
          have hj' : j < (enumFrom av (i + 1) fuel).1.length := by
            simpa [enumFrom, hav] using hj
          have := hrec.1 j hj'
          constructor
          · show (enumFrom av i (fuel + 1)).1.get ⟨j + 1, hj⟩ = mkPreamp (i + (j + 1))
            have hstep : (enumFrom av i (fuel + 1)).1 =
                mkPreamp i :: (enumFrom av (i + 1) fuel).1 := by simp [enumFrom, hav]
            rw [List.get_of_eq hstep ⟨j + 1, hj⟩, List.get_cons_succ]
            rw [(by omega : i + (j + 1) = i + 1 + j)]
            exact (this).1
          · rw [(by omega : i + (j + 1) = i + 1 + j)]
            exact (this).2
      · have hlen : (enumFrom av i (fuel + 1)).1.length =
            (enumFrom av (i + 1) fuel).1.length + 1 := by simp [enumFrom, hav]
        rcases hrec.2 with h | h
        · exact Or.inl (by omega)
        · refine Or.inr ?_
          rw [hlen, (by omega : i + ((enumFrom av (i + 1) fuel).1.length + 1) =
            i + 1 + (enumFrom av (i + 1) fuel).1.length)]
          exact h
    · constructor
      · intro j hj
        exact absurd hj (by simp [enumFrom, hav])
      · refine Or.inr ?_
        have h0 : (enumFrom av i (fuel + 1)).1.length = 0 := by simp [enumFrom, hav]
        rw [h0, Nat.add_zero]
        exact eq_false_of_ne_true hav

/-- C4: every chain of length `L` discovered by `enumerate()` consists of
the boards at hops `0 .. L-1` in increasing order, each at bus address
`(hop+1)*8`; every hop below `L` responded to the availability probe, and
either hop `L` did not respond or `L` is the maximum unit count; the result
replaces the previous chain entirely (it does not depend on it). -/
theorem C4_enumerate_gap_free (av : Nat → Bool) :
    (∀ j, (hj : j < (enumerateP av).1.length) →
        (enumerateP av).1.get ⟨j, hj⟩ = mkPreamp j ∧
        ((enumerateP av).1.get ⟨j, hj⟩).addr = (j + 1) * 8 ∧
        av j = true) ∧
    ((enumerateP av).1.length = MAX_UNITS ∨ av ((enumerateP av).1.length) = false) := by
  have h := enumFrom_spec av MAX_UNITS 0
  simp only [Nat.zero_add] at h
  constructor
  · intro j hj
    have hstep := h.1 j hj
    refine ⟨hstep.1, ?_, hstep.2⟩
    rw [show (enumerateP av).1.get ⟨j, hj⟩ = mkPreamp j from hstep.1]
    rfl
  · exact h.2

/-- Witness for C4 with the availability oracle "hops 0 and 1 respond":
the chain has length 2, its entries are the boards at hops 0 and 1 at
addresses 8 and 16, and hop 2 did not respond. -/
theorem C4_enumerate_gap_free_witness :
    (enumerateP (fun i => decide (i < 2))).1.length = 2 ∧
    (enumerateP (fun i => decide (i < 2))).1.get ⟨0, by decide⟩ = mkPreamp 0 ∧
    ((enumerateP (fun i => decide (i < 2))).1.get ⟨1, by decide⟩).addr = 16 ∧
    ((enumerateP (fun i => decide (i < 2))).1.length = MAX_UNITS ∨
      (fun i => decide (i < 2)) ((enumerateP (fun i => decide (i < 2))).1.length) = false) :=
  ⟨by decide,
   ((C4_enumerate_gap_free (fun i => decide (i < 2))).1 0 (by decide)).1,
   (((C4_enumerate_gap_free (fun i => decide (i < 2))).1 1 (by decide)).2.1.trans (by decide)),
   (C4_enumerate_gap_free (fun i => decide (i < 2))).2⟩

/-! ## C8 — `reset` master sequence and expander delegation -/

/-- `reset(0, bootloader=True)`: pulse the reset line and return. -/
theorem resetP_master_bootloader (st : PreampsS) (masterUp : Bool) (av : Nat → Bool) :
    resetP st 0 true masterUp av = .ok (st, [Ev.gpioReset true]) := by
  simp [resetP]

/-- `reset(0, bootloader=False)`: pulse, send the 115200-baud address
frame, probe the master, fall back once at 9600 baud iff the probe failed,
then re-enumerate. -/
theorem resetP_master_run (st : PreampsS) (masterUp : Bool) (av : Nat → Bool) :
    resetP st 0 false masterUp av =
      .ok (⟨(enumerateP av).1⟩,
        ([Ev.gpioReset false, .uart 115200 addrFrame, availEv 8] ++
          (if masterUp then [] else [Ev.gpioReset false, .uart 9600 addrFrame])) ++
        (enumerateP av).2) := by
  cases masterUp <;> simp [resetP, availEv, mkPreamp]

/-- `reset(unit)` for `unit > 0`: two writes to the expansion-control
register of `self.preamps[unit-1]`, state untouched. -/
theorem resetP_expander (st : PreampsS) (unit : Nat) (bootloader masterUp : Bool)
    (av : Nat → Bool) (p : PreampH) (h1 : unit ≠ 0)
    (h2 : st.preamps.get? (unit - 1) = some p) :
    resetP st unit bootloader masterUp av = .ok (st, reset_expander p bootloader) := by
  simp only [resetP, if_neg h1]
  rw [h2]

/-- C8: `reset(unit=0, bootloader=false)` pulses the reset line, transmits
exactly the 4-byte frame `0x41 0x10 0x0D 0x0A` at 115200 baud, and
performs exactly one fallback (a second reset plus the same frame at 9600
baud) iff the master's availability probe failed; for `unit > 0` the reset
is instead two writes to the expansion-control register of the board at
chain position `unit-1`. -/
theorem C8_reset_protocol :
    (∀ (st : PreampsS) (masterUp : Bool) (av : Nat → Bool),
      resetP st 0 false masterUp av =
        .ok (⟨(enumerateP av).1⟩,
          ([Ev.gpioReset false, .uart 115200 addrFrame, availEv 8] ++
            (if masterUp then [] else [Ev.gpioReset false, .uart 9600 addrFrame])) ++
          (enumerateP av).2)) ∧
    (∀ (st : PreampsS) (unit : Nat) (masterUp : Bool) (av : Nat → Bool) (p : PreampH),
      0 < unit → st.preamps.get? (unit - 1) = some p →
      resetP st unit false masterUp av =
        .ok (st, [.i2cWrite p.addr EXPANSION 0, .i2cWrite p.addr EXPANSION 1])) := by
  refine ⟨resetP_master_run, fun st unit masterUp av p hu hp => ?_⟩
  rw [resetP_expander st unit false masterUp av p (by omega) hp]
  rfl

/-- Witness for C8: a master reset with a responding master sends only the
115200-baud frame; a non-responding master gets exactly one 9600-baud
fallback; resetting unit 2 of a two-board chain writes the expansion
register of the board at position 1 (address 16). -/
theorem C8_reset_protocol_witness :
    (resetP ⟨[]⟩ 0 false true (fun i => decide (i < 1)) =
      .ok (⟨(enumerateP (fun i => decide (i < 1))).1⟩,
        ([Ev.gpioReset false, .uart 115200 addrFrame, availEv 8] ++ []) ++
        (enumerateP (fun i => decide (i < 1))).2)) ∧
    (resetP ⟨[mkPreamp 0, mkPreamp 1]⟩ 2 false true (fun _ => false) =
      .ok (⟨[mkPreamp 0, mkPreamp 1]⟩,
        [.i2cWrite 16 EXPANSION 0, .i2cWrite 16 EXPANSION 1])) :=
  ⟨by rw [(C8_reset_protocol).1 ⟨[]⟩ true (fun i => decide (i < 1))]; rfl,
   (C8_reset_protocol).2 ⟨[mkPreamp 0, mkPreamp 1]⟩ 2 true (fun _ => false) (mkPreamp 1)
     (by decide) (by decide)⟩

/-! ## C7 — `flash` baud whitelist and zero-board recovery -/

/-- The head of a chain whose master responded. -/
theorem enumerateP_head (av : Nat → Bool) (h : av 0 = true) :
    (enumerateP av).1.get? 0 = some (mkPreamp 0) := by
  show (enumFrom av 0 6).1.get? 0 = some (mkPreamp 0)
  rw [show (6 : Nat) = 5 + 1 from rfl]
  simp [enumFrom, h]

/-- C7: a baud rate outside the 17-entry whitelist makes `flash` raise
before any reset or bus event; with zero boards discovered (and a master
that responds after flashing), `flash` performs exactly one
reset-into-bootloader, one flash-transport run, one full reset, and one
version readback, all targeting hop 0 (address 8). -/
theorem C7_flash_validation_and_recovery :
    (∀ (st : PreampsS) (filepath : String) (baud : Nat) (m : Bool) (av : Nat → Bool)
        (rr : Nat → Nat → Nat) (fo : Bool), baud ∉ BAUD_RATES →
      flashP st filepath baud m av rr fo = .error ()) ∧
    (∀ (filepath : String) (baud : Nat) (av : Nat → Bool) (rr : Nat → Nat → Nat),
      baud ∈ BAUD_RATES → av 0 = true →
      flashP ⟨[]⟩ filepath baud true av rr true =
        .ok (⟨(enumerateP av).1⟩,
          [Ev.gpioReset true, Ev.flashRun baud filepath,
           Ev.gpioReset false, .uart 115200 addrFrame, availEv 8] ++
          (enumerateP av).2 ++ (read_versionP (mkPreamp 0) rr).2)) := by
  constructor
  · intro st filepath baud m av rr fo hb
    simp [flashP, hb]
  · intro filepath baud av rr hbaud hav0
    have e1 := resetP_master_bootloader (⟨[]⟩ : PreampsS) true av
    have e4 := resetP_master_run (⟨[]⟩ : PreampsS) true av
    have e5 := enumerateP_head av hav0
    unfold flashP
    rw [if_pos hbaud]
    show flashLoop filepath baud true av rr true ⟨[]⟩ (List.range 1) = _
    rw [show List.range 1 = [0] from rfl]
    unfold flashLoop
    rw [e1]
    show (match passLoop ⟨[]⟩ rr (List.range 0) with
      | .ok e2 => _
      | .error e => Except.error e) = _
    rw [show passLoop ⟨[]⟩ rr (List.range 0) = .ok [] from rfl]
    simp only [if_pos rfl, e4, e5]
    unfold flashLoop
    simp

/-- Witness for C7: baud 57601 is rejected outright; with no boards and a
master that appears at hop 0 after flashing, the full trace is the single
bootloader-reset / flash / reset / readback cycle at address 8. -/
theorem C7_flash_validation_and_recovery_witness :
    (flashP ⟨[]⟩ "fw.bin" 57601 true (fun i => decide (i = 0)) (fun _ _ => 0) true =
      .error ()) ∧
    (flashP ⟨[]⟩ "fw.bin" 115200 true (fun i => decide (i = 0)) (fun _ _ => 0) true =
      .ok (⟨(enumerateP (fun i => decide (i = 0))).1⟩,
        [Ev.gpioReset true, Ev.flashRun 115200 "fw.bin",
         Ev.gpioReset false, .uart 115200 addrFrame, availEv 8] ++
        (enumerateP (fun i => decide (i = 0))).2 ++
        (read_versionP (mkPreamp 0) (fun _ _ => 0)).2)) :=
  ⟨(C7_flash_validation_and_recovery).1 ⟨[]⟩ "fw.bin" 57601 true (fun i => decide (i = 0))
      (fun _ _ => 0) true (by decide),
   (C7_flash_validation_and_recovery).2 "fw.bin" 115200 (fun i => decide (i = 0))
      (fun _ _ => 0) (by decide) (by decide)⟩

/-! ## Shared lemmas about the `_Preamps` shadow state -/

theorem lookupA_mem : ∀ (l : List (Nat × List Int)) (k : Nat) (v : List Int),
    lookupA l k = some v → (k, v) ∈ l := by
  intro l
  induction l with
  | nil => intro k v h; simp [lookupA] at h
  | cons kv rest ih =>
    intro k v h
    obtain ⟨k1, v1⟩ := kv
    rw [lookupA] at h
    by_cases he : k1 = k
    · rw [if_pos he] at h
      simp only [Option.some_inj] at h
      rw [← he, ← h]
      exact List.mem_cons_self _ _
    · rw [if_neg he] at h
      exact List.mem_cons_of_mem _ (ih k v h)

theorem lookupA_isSome_of_mem_keys : ∀ (l : List (Nat × List Int)) (k : Nat),
    k ∈ l.map Prod.fst → (lookupA l k).isSome := by
  intro l
  induction l with
  | nil => intro k h; simp at h
  | cons kv rest ih =>
    intro k h
    rw [show kv = (kv.1, kv.2) from rfl, lookupA]
    by_cases he : kv.1 = k
    · rw [if_pos he]; rfl
    · rw [if_neg he]
      refine ih k ?_
      simp only [List.map_cons, List.mem_cons] at h
      rcases h with h | h
      · exact absurd h.symm he
      · exact h

theorem mem_setAssoc : ∀ (l : List (Nat × List Int)) (k : Nat) (v : List Int)
    (kv : Nat × List Int), kv ∈ setAssoc l k v → kv ∈ l ∨ kv = (k, v) := by
  intro l k v
  induction l with
  | nil => intro kv h; simp [setAssoc] at h
  | cons hd rest ih =>
    intro kv h
    rw [show hd = (hd.1, hd.2) from rfl, setAssoc] at h
    by_cases he : hd.1 = k
    · rw [if_pos he] at h
      rcases List.mem_cons.mp h with h | h
      · right; rw [h, he]
      · exact Or.inl (List.mem_cons_of_mem _ h)
    · rw [if_neg he] at h
      rcases List.mem_cons.mp h with h | h
      · exact Or.inl (by rw [h]; exact List.mem_cons_self _ _)
      · rcases ih kv h with h | h
        · exact Or.inl (List.mem_cons_of_mem _ h)
        · exact Or.inr h

theorem map_fst_setAssoc : ∀ (l : List (Nat × List Int)) (k : Nat) (v : List Int),
    (setAssoc l k v).map Prod.fst = l.map Prod.fst := by
  intro l k v
  induction l with
  | nil => rfl
  | cons hd rest ih =>
    rw [show hd = (hd.1, hd.2) from rfl, setAssoc]
    by_cases he : hd.1 = k
    · rw [if_pos he]
      simp [he]
    · rw [if_neg he]
      simp [ih]

theorem lookupA_setAssoc_isSome (l : List (Nat × List Int)) (k k' : Nat) (v : List Int)
    (h : (lookupA l k').isSome) : (lookupA (setAssoc l k v) k').isSome := by
  refine lookupA_isSome_of_mem_keys _ _ ?_
  rw [map_fst_setAssoc]
  cases hl : lookupA l k' with
  | none => rw [hl] at h; simp at h
  | some regs => exact List.mem_map.mpr ⟨(k', regs), lookupA_mem l k' regs hl, rfl⟩

theorem DEV_ADDRS_get (n : Nat) (h : n < 15) : DEV_ADDRS.get? n = some ((n + 1) * 8) := by
  interval_cases n <;> rfl

theorem pyIdx_DEV_ADDRS (p : Int) (h0 : 0 ≤ p) (h15 : p < 15) :
    pyIdx DEV_ADDRS p = some ((p.toNat + 1) * 8) := by
  have hnn : ¬ p < 0 := by omega
  simp only [pyIdx, if_neg hnn, if_pos h0]
  exact DEV_ADDRS_get p.toNat (by omega)

theorem pyIdx_mem_of_lt {α : Type} (l : List α) (i : Int) (h0 : 0 ≤ i)
    (hl : i < l.length) : ∃ v, pyIdx l i = some v ∧ v ∈ l := by
  have hnn : ¬ i < 0 := by omega
  simp only [pyIdx, if_neg hnn, if_pos h0]
  have hn : i.toNat < l.length := by omega
  exact ⟨l.get ⟨i.toNat, hn⟩, (List.get?_eq_get hn), List.get_mem l _ hn⟩

/-- A write to a *present* preamp: the shadow register is updated and a bus
write is recorded exactly on hardware. -/
theorem wbd_present (st : BusState) (addr reg : Nat) (data : Int) (regs : List Int)
    (ha : addr ∈ DEV_ADDRS) (hl : lookupA st.preamps addr = some regs)
    (hr : reg < regs.length) :
    write_byte_data st addr reg data =
      .ok ({ st with preamps := setAssoc st.preamps addr (regs.set reg data) },
        if st.mock then [] else [(addr, reg, data)]) := by
  simp only [write_byte_data, if_pos ha, hl, if_pos hr]

/-- Any `write_byte_data` at a valid device address and register succeeds
on a well-formed state, preserves well-formedness and the mode, and on
hardware preserves the key set. -/
theorem wbd_ok (st : BusState) (addr reg : Nat) (data : Int)
    (ha : addr ∈ DEV_ADDRS) (hWF : WFbus st) (hr : reg < 11) :
    ∃ st' ws, write_byte_data st addr reg data = .ok (st', ws) ∧ WFbus st' ∧
      st'.mock = st.mock ∧
      (st.mock = false → st'.preamps.map Prod.fst = st.preamps.map Prod.fst) := by
  cases hl : lookupA st.preamps addr with
  | some regs =>
    have hmem := lookupA_mem _ _ _ hl
    have hlen : regs.length = 11 := (hWF _ hmem).2
    refine ⟨_, _, wbd_present st addr reg data regs ha hl (by omega), ?_, rfl, ?_⟩
    · intro kv hkv
      rcases mem_setAssoc _ _ _ _ hkv with h | h
      · exact hWF _ h
      · rw [h]
        exact ⟨ha, by simp [List.length_set, hlen]⟩
    · intro _
      exact map_fst_setAssoc _ _ _
  | none =>
    by_cases hm : st.mock = true
    · have hr' : reg < defaultRegs.length := by simp [defaultRegs]; omega
      refine ⟨{ st with preamps := st.preamps ++ [(addr, defaultRegs.set reg data)] }, [],
        ?_, ?_, rfl, fun hfalse => by simp [hm] at hfalse⟩
      · simp only [write_byte_data, if_pos ha, hl, hm, if_pos hr']
        simp
      · intro kv hkv
        rcases List.mem_append.mp hkv with h | h
        · exact hWF _ h
        · simp only [List.mem_singleton] at h
          rw [h]
          exact ⟨ha, by simp [List.length_set, defaultRegs]⟩
    · have hmf : st.mock = false := by revert hm; cases st.mock <;> simp
      refine ⟨st, [], ?_, hWF, rfl, fun _ => rfl⟩
      simp only [write_byte_data, if_pos ha, hl, hmf]
      rfl

/-- The standby loop over a list of present keys succeeds, writes the
`STANDBY` register of each key in order on hardware (and nothing on the
bus in mock mode), and preserves mode, well-formedness and the key set. -/
theorem standbyLoop_spec (v : Int) : ∀ (ks : List Nat) (bus : BusState),
    WFbus bus → (∀ k ∈ ks, (lookupA bus.preamps k).isSome) →
    ∃ bus', standbyLoop bus v ks =
        .ok (bus', if bus.mock then [] else ks.map (fun k => (k, STANDBY, v))) ∧
      bus'.mock = bus.mock ∧ WFbus bus' ∧
      bus'.preamps.map Prod.fst = bus.preamps.map Prod.fst := by
  intro ks
  induction ks with
  | nil =>
    intro bus hWF _
    exact ⟨bus, by cases bus.mock <;> simp [standbyLoop], rfl, hWF, rfl⟩
  | cons k ks ih =>
    intro bus hWF hpres
    obtain ⟨regs, hregs⟩ := Option.isSome_iff_exists.mp (hpres k (List.mem_cons_self _ _))
    have hlen : regs.length = 11 := (hWF _ (lookupA_mem _ _ _ hregs)).2
    have hka : k ∈ DEV_ADDRS := (hWF _ (lookupA_mem _ _ _ hregs)).1
    have hw := wbd_present bus k STANDBY v regs hka hregs (by rw [hlen]; norm_num [STANDBY])
    set bus1 : BusState :=
      { bus with preamps := setAssoc bus.preamps k (regs.set STANDBY v) } with hbus1
    have hWF1 : WFbus bus1 := by
      intro kv hkv
      rcases mem_setAssoc _ _ _ _ hkv with h | h
      · exact hWF _ h
      · rw [h]
        exact ⟨hka, by simp [List.length_set, hlen]⟩
    have hpres1 : ∀ k' ∈ ks, (lookupA bus1.preamps k').isSome := fun k' hk' =>
      lookupA_setAssoc_isSome _ _ _ _ (hpres k' (List.mem_cons_of_mem _ hk'))
    obtain ⟨bus2, hrun, hmock2, hWF2, hkeys2⟩ := ih bus1 hWF1 hpres1
    refine ⟨bus2, ?_, ?_, hWF2, ?_⟩
    · have hm1 : bus1.mock = bus.mock := rfl
      simp only [standbyLoop, hw, hrun]
      cases hmb : bus.mock <;> simp [hm1, hmb]
    · rw [hmock2]
    · rw [hkeys2, hbus1]
      exact map_fst_setAssoc _ _ _

/-- The mute-config loop succeeds when all six window entries are present
booleans. -/
theorem muteCfgLoop_ok (mutes : List PyVal) (preamp : Int) : ∀ (zs : List Nat) (cfg : Nat),
    (∀ z ∈ zs, ∃ b, pyIdx mutes (preamp * 6 + z) = some (.pyBool b)) →
    ∃ c, muteCfgLoop mutes preamp zs cfg = .ok c := by
  intro zs
  induction zs with
  | nil => exact fun cfg _ => ⟨cfg, rfl⟩
  | cons z zs ih =>
    intro cfg hall
    obtain ⟨b, hb⟩ := hall z (List.mem_cons_self _ _)
    obtain ⟨c, hc⟩ := ih (if b then cfg ||| (1 <<< z) else cfg)
      (fun z' hz' => hall z' (List.mem_cons_of_mem _ hz'))
    exact ⟨c, by rw [muteCfgLoop, hb]; exact hc⟩

/-- The source-config loop succeeds when all six window entries are present
plain integers. -/
theorem srcCfgLoop_ok_int (sources : List PyVal) (preamp : Int) : ∀ (zs : List Nat)
    (c123 c456 : Int),
    (∀ z ∈ zs, ∃ n, pyIdx sources (preamp * 6 + z) = some (.pyInt n)) →
    ∃ r, srcCfgLoop sources preamp zs c123 c456 = .ok r := by
  intro zs
  induction zs with
  | nil => exact fun c123 c456 _ => ⟨(c123, c456), rfl⟩
  | cons z zs ih =>
    intro c123 c456 hall
    obtain ⟨n, hn⟩ := hall z (List.mem_cons_self _ _)
    have hrest := fun z' hz' => hall z' (List.mem_cons_of_mem _ hz')
    by_cases hz3 : z < 3
    · obtain ⟨r, hr⟩ := ih (Int.lor c123 (n * (2 : Int) ^ (z * 2))) c456 hrest
      refine ⟨r, ?_⟩
      rw [srcCfgLoop, hn]
      simp only [typeIsInt, Bool.true_or, if_pos hz3, pyShl, if_true]
      exact hr
    · obtain ⟨r, hr⟩ := ih c123 (Int.lor c456 (n * (2 : Int) ^ ((z - 3) * 2))) hrest
      refine ⟨r, ?_⟩
      rw [srcCfgLoop, hn]
      simp only [typeIsInt, Bool.true_or, if_neg hz3, pyShl, if_true]
      exact hr

/-- The source-config loop raises when some window entry is missing or has
a type the validation rejects. -/
theorem srcCfgLoop_err (sources : List PyVal) (preamp : Int) : ∀ (zs : List Nat)
    (c123 c456 : Int), (∃ z ∈ zs, badSrcAt sources preamp z = true) →
    srcCfgLoop sources preamp zs c123 c456 = .error () := by
  intro zs
  induction zs with
  | nil => intro _ _ h; simp at h
  | cons z zs ih =>
    intro c123 c456 hbad
    cases hpy : pyIdx sources (preamp * 6 + z) with
    | none => rw [srcCfgLoop, hpy]
    | some v =>
      by_cases hty : typeIsInt v || eqNone v
      · have hz : badSrcAt sources preamp z = false := by
          simp only [badSrcAt, hpy]
          rw [hty]
          rfl
        obtain ⟨z', hz', hbad'⟩ := hbad
        rcases List.mem_cons.mp hz' with h | h
        · rw [h] at hbad'
          rw [hz] at hbad'
          cases hbad'
        · cases v with
          | pyInt n =>
            rw [srcCfgLoop, hpy]
            simp only [typeIsInt, Bool.true_or, if_true]
            by_cases hz3 : z < 3
            · rw [if_pos hz3]
              simp only [pyShl]
              exact ih _ _ ⟨z', h, hbad'⟩
            · rw [if_neg hz3]
              simp only [pyShl]
              exact ih _ _ ⟨z', h, hbad'⟩
          | pyBool b =>
            simp [typeIsInt, eqNone] at hty
          | pyNone =>
            rw [srcCfgLoop, hpy]
            simp only [typeIsInt, eqNone, Bool.or_true, if_true]
            by_cases hz3 : z < 3 <;> simp [hz3, pyShl]
      · simp only [srcCfgLoop, hpy]
        rw [if_neg hty]

/-! ## C5 — `update_zone_vol` register mapping -/

/-- C5 (amended): for every zone `z ≥ 0` whose hop `z div 6` is below 15
and every volume `v ∈ [-79, 0]`, when the owning board is present on the
hardware bus, `update_zone_vol(z, v)` performs exactly one register write:
`|v|` to the channel-`(z mod 6)` attenuation register
(`CH1_ATTEN + z mod 6`) of the board at device address `(z div 6 + 1)*8`;
a zone with hop ≥ 15 is instead rejected by an assert with no write (see
the counterexample). -/
theorem C5_update_zone_vol_amended (st : RpiState) (zone vol : Int)
    (hz : 0 ≤ zone) (hp : Int.tdiv zone 6 < 15)
    (hv1 : -79 ≤ vol) (hv2 : vol ≤ 0)
    (hWF : WFbus st.bus) (hm : st.bus.mock = false)
    (hpres : ∃ regs, lookupA st.bus.preamps (((Int.tdiv zone 6).toNat + 1) * 8) = some regs) :
    ∃ bus', rpiUpdateZoneVol st zone vol =
      .ok (⟨bus', st.allMuted⟩,
        [((((Int.tdiv zone 6).toNat) + 1) * 8, CH1_ATTEN + (zone % 6).toNat, |vol|)]) := by
  have h0p : (0 : Int) ≤ Int.tdiv zone 6 := Int.tdiv_nonneg hz (by norm_num)
  obtain ⟨regs, hregs⟩ := hpres
  have hmem := lookupA_mem _ _ _ hregs
  have hlen : regs.length = 11 := (hWF _ hmem).2
  have haddr : ((Int.tdiv zone 6).toNat + 1) * 8 ∈ DEV_ADDRS := (hWF _ hmem).1
  have htd : Int.tdiv zone 6 = zone / 6 := Int.tdiv_eq_ediv hz (by norm_num)
  have hchan : ((CH1_ATTEN : Int) + (zone - Int.tdiv zone 6 * 6)).toNat =
      CH1_ATTEN + (zone % 6).toNat := by
    rw [htd]
    simp only [CH1_ATTEN]
    omega
  have hrlt : CH1_ATTEN + (zone % 6).toNat < regs.length := by
    rw [hlen]
    simp only [CH1_ATTEN]
    omega
  refine ⟨{ st.bus with preamps := (setAssoc st.bus.preamps (((Int.tdiv zone 6).toNat + 1) * 8)
    (regs.set (CH1_ATTEN + (zone % 6).toNat) |vol|)) }, ?_⟩
  simp only [rpiUpdateZoneVol, if_pos hz, if_pos hp,
    if_pos (show vol ≤ 0 ∧ -79 ≤ vol from ⟨hv2, hv1⟩),
    pyIdx_DEV_ADDRS _ h0p hp, hchan,
    wbd_present st.bus (((Int.tdiv zone 6).toNat + 1) * 8) (CH1_ATTEN + (zone % 6).toNat)
      |vol| regs haddr hregs hrlt, hm]
  rfl

/-- C5 counterexample to the claim as stated: at zone 90 (hop 15) and
volume 0 the call raises an `AssertionError` (`preamp < 15` fails) and
performs no write, although the claim quantifies over every `z ≥ 0`. -/
theorem C5_update_zone_vol_counterexample :
    rpiUpdateZoneVol rpiTwoBoards 90 0 = .error () := by
  rfl

/-- Witness for C5 at the spec's own scenario: two boards, zone 7 set to
volume −40 writes 40 to channel 1's attenuation register of board 1
(device address 16, register 6). -/
theorem C5_update_zone_vol_witness :
    (∃ bus', rpiUpdateZoneVol rpiTwoBoards 7 (-40) =
      .ok (⟨bus', rpiTwoBoards.allMuted⟩,
        [((((Int.tdiv 7 6).toNat) + 1) * 8, CH1_ATTEN + ((7 : Int) % 6).toNat,
          |(-40 : Int)|)])) ∧
    ((((Int.tdiv 7 6).toNat) + 1) * 8 = 16 ∧
      CH1_ATTEN + ((7 : Int) % 6).toNat = 6 ∧ |(-40 : Int)| = 40) :=
  ⟨C5_update_zone_vol_amended rpiTwoBoards 7 (-40) (by decide) (by decide) (by decide)
      (by decide) (by decide) rfl ⟨defaultRegs, by decide⟩,
   by decide, by decide, by decide⟩

/-! ## C2 — setter validation and atomicity -/

/-- C2 (amended): volume outside `[-79, 0]` and boolean-array lengths that
are not positive multiples of six are rejected (`AssertionError`) with zero
register writes; a source id whose *type* is neither `int` nor `None`
anywhere in the target window is likewise rejected with zero writes; but
source ids are validated only for type, not range — any window of plain
integers (e.g. `7`, outside 0–3) passes validation and the call performs
its register writes (see the counterexample). In all rejection cases the
assert chain runs before the first `write_byte_data` call, so no partial
write is possible. -/
theorem C2_validation_amended :
    (∀ (st : RpiState) (zone vol : Int), ¬(-79 ≤ vol ∧ vol ≤ 0) →
      rpiUpdateZoneVol st zone vol = .error ()) ∧
    (∀ (st : RpiState) (zone : Int) (m : List PyVal),
      ¬(6 ≤ m.length ∧ m.length % 6 = 0) →
      rpiUpdateZoneMutes st zone m = .error ()) ∧
    (∀ (st : RpiState) (zone : Int) (s : List PyVal),
      ¬(6 ≤ s.length ∧ s.length % 6 = 0) →
      rpiUpdateZoneSources st zone s = .error ()) ∧
    (∀ (st : RpiState) (zone : Int) (s : List PyVal),
      (∃ z, z < 6 ∧ badSrcAt s (Int.ediv zone 6) z = true) →
      rpiUpdateZoneSources st zone s = .error ()) ∧
    (∀ (st : RpiState) (zone : Int) (s : List PyVal),
      WFbus st.bus → 0 ≤ zone → Int.ediv zone 6 < 15 →
      6 ≤ s.length → s.length % 6 = 0 →
      (∀ z : Nat, z < 6 → ∃ n, pyIdx s (Int.ediv zone 6 * 6 + (z : Int)) = some (.pyInt n)) →
      ∃ r, rpiUpdateZoneSources st zone s = .ok r) := by
  refine ⟨?_, ?_, ?_, ?_, ?_⟩
  · intro st zone vol hv
    simp only [rpiUpdateZoneVol]
    split_ifs with h1 h2 h3 <;> try rfl
    exact absurd ⟨h3.2, h3.1⟩ hv
  · intro st zone m hl
    unfold rpiUpdateZoneMutes
    split_ifs with h1 h2 <;> try rfl
    exact absurd ⟨h1, by omega⟩ hl
  · intro st zone s hl
    unfold rpiUpdateZoneSources
    split_ifs with h1 h2 <;> try rfl
    exact absurd ⟨h1, by omega⟩ hl
  · intro st zone s hbad
    obtain ⟨z, hz6, hz⟩ := hbad
    have hmem : z ∈ ([0, 1, 2, 3, 4, 5] : List Nat) := by interval_cases z <;> simp
    have herr := srcCfgLoop_err s (Int.ediv zone 6) [0, 1, 2, 3, 4, 5] 0x00 0x00 ⟨z, hmem, hz⟩
    unfold rpiUpdateZoneSources
    split_ifs <;> try rfl
    simp only [herr]
  · intro st zone s hWF hz hp hl1 hl2 hwin
    have h0p : (0 : Int) ≤ Int.ediv zone 6 := Int.ediv_nonneg hz (by norm_num)
    obtain ⟨⟨c123, c456⟩, hloop⟩ := srcCfgLoop_ok_int s (Int.ediv zone 6) [0, 1, 2, 3, 4, 5]
      0x00 0x00 (fun z hzm => hwin z (by fin_cases hzm <;> norm_num))
    have haddr : ((Int.ediv zone 6).toNat + 1) * 8 ∈ DEV_ADDRS :=
      List.get?_mem (DEV_ADDRS_get (Int.ediv zone 6).toNat (by omega))
    obtain ⟨b1, w1, hw1, hWF1, hm1, _⟩ := wbd_ok st.bus (((Int.ediv zone 6).toNat + 1) * 8)
      CH123_SRC c123 haddr hWF (by simp [CH123_SRC])
    obtain ⟨b2, w2, hw2, _, _, _⟩ := wbd_ok b1 (((Int.ediv zone 6).toNat + 1) * 8)
      CH456_SRC c456 haddr hWF1 (by simp [CH456_SRC])
    refine ⟨({ st with bus := b2 }, w1 ++ w2), ?_⟩
    unfold rpiUpdateZoneSources
    rw [if_pos hl1, if_pos (by omega)]
    simp only [hloop, pyIdx_DEV_ADDRS _ h0p hp, hw1, hw2]

/-- C2 counterexample to the claim as stated: the source id `7` is an
integer outside 0–3 and not the disconnected value, yet
`update_zone_sources` accepts it and performs two register writes (the
claim requires rejection with zero writes). -/
theorem C2_validation_counterexample :
    rpiUpdateZoneSources rpiOneBoard 0
      [.pyInt 7, .pyInt 0, .pyInt 0, .pyInt 0, .pyInt 0, .pyInt 0] =
    .ok (⟨⟨false, [(8, [0x0F, 7, 0, 0x3F, 0, 0x4F, 0x4F, 0x4F, 0x4F, 0x4F, 0x4F])]⟩, true⟩,
      [(8, CH123_SRC, 7), (8, CH456_SRC, 0)]) := by
  rfl

/-- Witness for C2: an out-of-range volume, a 1-element mute array, a
1-element source array, and a window containing a `bool` source id are all
rejected; a window of plain integers is accepted. -/
theorem C2_validation_witness :
    (rpiUpdateZoneVol rpiOneBoard 0 5 = .error ()) ∧
    (rpiUpdateZoneMutes rpiOneBoard 0 [.pyBool true] = .error ()) ∧
    (rpiUpdateZoneSources rpiOneBoard 0 [.pyNone] = .error ()) ∧
    (rpiUpdateZoneSources rpiOneBoard 0
      [.pyBool true, .pyInt 0, .pyInt 0, .pyInt 0, .pyInt 0, .pyInt 0] = .error ()) ∧
    (∃ r, rpiUpdateZoneSources rpiOneBoard 0
      [.pyInt 9, .pyInt 9, .pyInt 9, .pyInt 9, .pyInt 9, .pyInt 9] = .ok r) :=
  ⟨C2_validation_amended.1 rpiOneBoard 0 5 (by decide),
   C2_validation_amended.2.1 rpiOneBoard 0 [.pyBool true] (by decide),
   C2_validation_amended.2.2.1 rpiOneBoard 0 [.pyNone] (by decide),
   C2_validation_amended.2.2.2.1 rpiOneBoard 0
     [.pyBool true, .pyInt 0, .pyInt 0, .pyInt 0, .pyInt 0, .pyInt 0] ⟨0, by decide, by decide⟩,
   C2_validation_amended.2.2.2.2 rpiOneBoard 0
     [.pyInt 9, .pyInt 9, .pyInt 9, .pyInt 9, .pyInt 9, .pyInt 9] (by decide) (by decide)
     (by decide) (by decide) (by decide)
     (fun z hz => by
        match z with
        | 0 => exact ⟨9, rfl⟩
        | 1 => exact ⟨9, rfl⟩
        | 2 => exact ⟨9, rfl⟩
        | 3 => exact ⟨9, rfl⟩
        | 4 => exact ⟨9, rfl⟩
        | 5 => exact ⟨9, rfl⟩
        | z + 6 => exact absurd hz (by omega))⟩

/-! ## C3 — standby writes exactly on aggregate-mute transitions -/

/-- C3: across any sequence of `update_zone_mutes` calls (each call is
characterised here on an arbitrary reachable state, whose `allMuted` field
carries the history), the standby registers are written precisely when the
aggregate all-zones-muted flag computed from the argument differs from the
stored flag: on a transition every discovered board's `STANDBY` register
is written, `0x00` when all zones became muted and `0x3F` when a zone
became unmuted, and the stored flag is updated; a call that does not
change the aggregate performs no standby write. -/
theorem C3_standby_on_aggregate_transition (st : RpiState) (zone : Int) (m : List PyVal)
    (hm : st.bus.mock = false) (hWF : WFbus st.bus)
    (hz : 0 ≤ zone) (hp : Int.ediv zone 6 < 15)
    (hl1 : 6 ≤ m.length) (hl2 : m.length % 6 = 0)
    (hwin : ∀ z : Nat, z < 6 →
      ∃ b, pyIdx m (Int.ediv zone 6 * 6 + (z : Int)) = some (.pyBool b)) :
    ∃ st' ws, rpiUpdateZoneMutes st zone m = .ok (st', ws) ∧
      ws.filter isStandbyW =
        (if allMutedOf m = st.allMuted then []
         else st.bus.preamps.map
           (fun kv => (kv.1, STANDBY, if allMutedOf m then (0x00 : Int) else 0x3F))) ∧
      st'.allMuted = allMutedOf m ∧
      (st.bus.preamps ≠ [] →
        ((∃ w ∈ ws, isStandbyW w = true) ↔ allMutedOf m ≠ st.allMuted)) := by
  have h0p : (0 : Int) ≤ Int.ediv zone 6 := Int.ediv_nonneg hz (by norm_num)
  obtain ⟨cfg, hcfg⟩ := muteCfgLoop_ok m (Int.ediv zone 6) [0, 1, 2, 3, 4, 5] 0x00
    (fun z hzm => hwin z (by fin_cases hzm <;> norm_num))
  -- the mute write: present target updates the shadow, absent target is a no-op
  obtain ⟨bus1, w1, hw1, hWF1, hmock1, hkeys1, hfil1⟩ :
      ∃ bus1 w1, write_byte_data st.bus (((Int.ediv zone 6).toNat + 1) * 8) MUTE (cfg : Int) =
          .ok (bus1, w1) ∧ WFbus bus1 ∧ bus1.mock = false ∧
        bus1.preamps.map Prod.fst = st.bus.preamps.map Prod.fst ∧
        w1.filter isStandbyW = [] := by
    cases hl : lookupA st.bus.preamps (((Int.ediv zone 6).toNat + 1) * 8) with
    | some regs =>
      have hmem := lookupA_mem _ _ _ hl
      have hlen : regs.length = 11 := (hWF _ hmem).2
      refine ⟨_, _, wbd_present st.bus _ MUTE (cfg : Int) regs (hWF _ hmem).1 hl
        (by rw [hlen]; simp [MUTE]), ?_, hm, map_fst_setAssoc _ _ _, by rw [hm]; rfl⟩
      intro kv hkv
      rcases mem_setAssoc _ _ _ _ hkv with h | h
      · exact hWF _ h
      · rw [h]
        exact ⟨(hWF _ hmem).1, by simp [List.length_set, hlen]⟩
    | none =>
      have haddr : ((Int.ediv zone 6).toNat + 1) * 8 ∈ DEV_ADDRS :=
        List.get?_mem (DEV_ADDRS_get (Int.ediv zone 6).toNat (by omega))
      refine ⟨st.bus, [], ?_, hWF, hm, rfl, rfl⟩
      simp only [write_byte_data, if_pos haddr, hl, hm]
      rfl
  by_cases hb : st.allMuted = allMutedOf m
  · -- no aggregate transition: only the mute write happens
    refine ⟨{ st with bus := bus1 }, w1, ?_, ?_, ?_, ?_⟩
    · simp only [rpiUpdateZoneMutes, if_pos hl1, if_pos (show m.length = m.length / 6 * 6 by
        omega), hcfg, pyIdx_DEV_ADDRS _ h0p hp, hw1]
      rw [if_neg (not_not_intro hb)]
    · rw [if_pos hb.symm, hfil1]
    · exact hb
    · intro _
      constructor
      · rintro ⟨w, hwmem, hwstandby⟩
        have := List.filter_eq_nil.mp hfil1 w hwmem
        rw [hwstandby] at this
        cases this rfl
      · intro hne
        exact absurd hb.symm hne
  · -- aggregate transition: standby-write every discovered board
    have hpres1 : ∀ k ∈ bus1.preamps.map Prod.fst, (lookupA bus1.preamps k).isSome :=
      fun k hk => lookupA_isSome_of_mem_keys _ _ hk
    obtain ⟨bus2, hrun, hmock2, hWF2, hkeys2⟩ :=
      standbyLoop_spec (if allMutedOf m then (0x00 : Int) else 0x3F)
        (bus1.preamps.map Prod.fst) bus1 hWF1 hpres1
    rw [hmock1] at hrun
    simp only [if_neg (by simp : ¬ false = true)] at hrun
    refine ⟨⟨bus2, allMutedOf m⟩, w1 ++ (bus1.preamps.map Prod.fst).map
      (fun k => (k, STANDBY, if allMutedOf m then (0x00 : Int) else 0x3F)), ?_, ?_, rfl, ?_⟩
    · simp only [rpiUpdateZoneMutes, if_pos hl1, if_pos (show m.length = m.length / 6 * 6 by
        omega), hcfg, pyIdx_DEV_ADDRS _ h0p hp, hw1]
      rw [if_pos hb, hrun]
    · rw [if_neg (show ¬ allMutedOf m = st.allMuted from fun hcon => hb hcon.symm),
        List.filter_append, hfil1, List.nil_append,
        List.filter_eq_self.mpr (by
          intro w hwmem
          obtain ⟨k, _, hkw⟩ := List.mem_map.mp hwmem
          rw [← hkw]
          rfl),
        hkeys1, List.map_map]
      rfl
    · intro hne
      constructor
      · intro _
        exact fun hcon => hb hcon.symm
      · intro _
        obtain ⟨kv, hkv⟩ := List.exists_mem_of_ne_nil _ hne
        refine ⟨(kv.1, STANDBY, if allMutedOf m then (0x00 : Int) else 0x3F),
          List.mem_append_right _ ?_, rfl⟩
        rw [hkeys1]
        exact List.mem_map.mpr ⟨kv.1, List.mem_map.mpr ⟨kv, hkv, rfl⟩, rfl⟩

/-- Witness for C3: on a two-board chain with the stored flag `true`
(everything muted), unmuting zone 0 flips the aggregate and standby-writes
`0x3F` to both boards; repeating the same call from the resulting state
writes no standby register. -/
theorem C3_standby_on_aggregate_transition_witness :
    (∃ st' ws, rpiUpdateZoneMutes rpiTwoBoards 0
        [.pyBool false, .pyBool true, .pyBool true, .pyBool true, .pyBool true, .pyBool true,
         .pyBool true, .pyBool true, .pyBool true, .pyBool true, .pyBool true, .pyBool true] =
        .ok (st', ws) ∧
      ws.filter isStandbyW =
        (if allMutedOf
            [.pyBool false, .pyBool true, .pyBool true, .pyBool true, .pyBool true, .pyBool true,
             .pyBool true, .pyBool true, .pyBool true, .pyBool true, .pyBool true,
             .pyBool true] = rpiTwoBoards.allMuted then []
         else rpiTwoBoards.bus.preamps.map
           (fun kv => (kv.1, STANDBY,
             if allMutedOf
                 [.pyBool false, .pyBool true, .pyBool true, .pyBool true, .pyBool true,
                  .pyBool true, .pyBool true, .pyBool true, .pyBool true, .pyBool true,
                  .pyBool true, .pyBool true] then (0x00 : Int) else 0x3F))) ∧
      st'.allMuted = allMutedOf
        [.pyBool false, .pyBool true, .pyBool true, .pyBool true, .pyBool true, .pyBool true,
         .pyBool true, .pyBool true, .pyBool true, .pyBool true, .pyBool true, .pyBool true] ∧
      (rpiTwoBoards.bus.preamps ≠ [] →
        ((∃ w ∈ ws, isStandbyW w = true) ↔ allMutedOf
            [.pyBool false, .pyBool true, .pyBool true, .pyBool true, .pyBool true, .pyBool true,
             .pyBool true, .pyBool true, .pyBool true, .pyBool true, .pyBool true,
             .pyBool true] ≠ rpiTwoBoards.allMuted))) :=
  C3_standby_on_aggregate_transition rpiTwoBoards 0
    [.pyBool false, .pyBool true, .pyBool true, .pyBool true, .pyBool true, .pyBool true,
     .pyBool true, .pyBool true, .pyBool true, .pyBool true, .pyBool true, .pyBool true]
    rfl (by decide) (by decide) (by decide) (by decide) (by decide)
    (fun z hz => by
      match z with
      | 0 => exact ⟨false, rfl⟩
      | 1 => exact ⟨true, rfl⟩
      | 2 => exact ⟨true, rfl⟩
      | 3 => exact ⟨true, rfl⟩
      | 4 => exact ⟨true, rfl⟩
      | 5 => exact ⟨true, rfl⟩
      | z + 6 => exact absurd hz (by omega))

/-! ## C9 — Mock vs Rpi input contracts -/

/-- `type(x) == bool` and `isinstance(x, bool)` agree on every value. -/
theorem typeIsBool_eq_isinstanceBool (v : PyVal) : typeIsBool v = isinstanceBool v := by
  cases v <;> rfl

/-- The bit-packing loop of `update_sources` succeeds when every probed
index is in range. -/
theorem digitalBits_ok (d : List PyVal) : ∀ (is : List Nat) (out : Nat),
    (∀ i ∈ is, (i : Int) < d.length) → ∃ o, digitalBits d is out = .ok o := by
  intro is
  induction is with
  | nil => exact fun out _ => ⟨out, rfl⟩
  | cons i is ih =>
    intro out hall
    obtain ⟨v, hv, _⟩ := pyIdx_mem_of_lt d i (by positivity)
      (hall i (List.mem_cons_self _ _))
    obtain ⟨o, ho⟩ := ih (if pyTruthy v then out ||| (1 <<< i) else out)
      (fun i' hi' => hall i' (List.mem_cons_of_mem _ hi'))
    exact ⟨o, by rw [digitalBits, hv]; exact ho⟩

/-- A boolean array of valid length passes all of `Mock.update_zone_mutes`'s
asserts. -/
theorem mockMutes_of_length_all (z : Int) (m : List PyVal) (h1 : 6 ≤ m.length)
    (h2 : m.length % 6 = 0) (hall : m.all isinstanceBool = true) :
    mockUpdateZoneMutes z m = true := by
  unfold mockUpdateZoneMutes
  refine (Bool.and_eq_true _ _).mpr ⟨(Bool.and_eq_true _ _).mpr ⟨by simpa, by simp; omega⟩, ?_⟩
  refine List.all_eq_true.mpr fun p hp => List.all_eq_true.mpr fun zi hzi => ?_
  rw [List.mem_range] at hp hzi
  have hidx : p * 6 + zi < m.length := by omega
  rw [List.get?_eq_get hidx]
  exact List.all_eq_true.mp hall _ (List.get_mem m _ hidx)

/-- An int-or-`None` array of valid length passes all of
`Mock.update_zone_sources`'s asserts. -/
theorem mockSources_of_length_all (z : Int) (s : List PyVal) (h1 : 6 ≤ s.length)
    (h2 : s.length % 6 = 0) (hall : s.all (fun v => isinstanceInt v || eqNone v) = true) :
    mockUpdateZoneSources z s = true := by
  unfold mockUpdateZoneSources
  refine (Bool.and_eq_true _ _).mpr ⟨(Bool.and_eq_true _ _).mpr ⟨by simpa, by simp; omega⟩, ?_⟩
  refine List.all_eq_true.mpr fun p hp => List.all_eq_true.mpr fun zi hzi => ?_
  rw [List.mem_range] at hp hzi
  have hidx : p * 6 + zi < s.length := by omega
  rw [List.get?_eq_get hidx]
  exact List.all_eq_true.mp hall _ (List.get_mem s _ hidx)

/-- C9 (amended): the Mock and Rpi runtimes agree on the shape and range
contracts, but not on every input. They agree exactly on: `update_sources`
(all inputs); `update_zone_vol` for target hops below 15 (for hop 15,
zones 90–95, Mock accepts volumes that Rpi rejects — see the
counterexample); `update_zone_mutes` on boolean arrays whose target window
is in range; and `update_zone_sources` on plain-integer arrays whose
target window is in range (on other inputs Rpi element-checks only the
target window while Mock checks every entry, and Mock accepts `bool`
source ids that Rpi rejects). Mock returning `true` is what "reports
success" means: it does no I/O. -/
theorem C9_contracts_amended :
    (∀ (st : RpiState) (d : List PyVal), WFbus st.bus →
      (mockUpdateSources d = true ↔ ∃ r, rpiUpdateSources st d = .ok r)) ∧
    (∀ (st : RpiState) (z v : Int), WFbus st.bus → Int.tdiv z 6 < 15 →
      (mockUpdateZoneVol z v = true ↔ ∃ r, rpiUpdateZoneVol st z v = .ok r)) ∧
    (∀ v : Int, -79 ≤ v → v ≤ 0 →
      mockUpdateZoneVol 90 v = true ∧ ∀ st, rpiUpdateZoneVol st 90 v = .error ()) ∧
    (∀ (st : RpiState) (z : Int) (m : List PyVal), WFbus st.bus → 0 ≤ z →
      Int.ediv z 6 < 15 → (Int.ediv z 6).toNat * 6 + 6 ≤ m.length →
      m.all isinstanceBool = true →
      (mockUpdateZoneMutes z m = true ↔ ∃ r, rpiUpdateZoneMutes st z m = .ok r)) ∧
    (∀ (st : RpiState) (z : Int) (s : List PyVal), WFbus st.bus → 0 ≤ z →
      Int.ediv z 6 < 15 → (Int.ediv z 6).toNat * 6 + 6 ≤ s.length →
      s.all typeIsInt = true →
      (mockUpdateZoneSources z s = true ↔ ∃ r, rpiUpdateZoneSources st z s = .ok r)) := by
  refine ⟨?_, ?_, ?_, ?_, ?_⟩
  · -- update_sources
    intro st d hWF
    constructor
    · intro hmock
      rw [mockUpdateSources, Bool.and_eq_true, beq_iff_eq] at hmock
      obtain ⟨hlen, hall⟩ := hmock
      have hallT : d.all typeIsBool = true := by
        rw [List.all_eq_true] at hall ⊢
        intro v hv
        rw [typeIsBool_eq_isinstanceBool]
        exact hall v hv
      obtain ⟨o, ho⟩ := digitalBits_ok d [0, 1, 2, 3] 0x00
        (fun i hi => by fin_cases hi <;> rw [hlen] <;> norm_num)
      obtain ⟨b1, w1, hw1, _, _, _⟩ := wbd_ok st.bus 0x08 SRC_AD (o : Int)
        (by decide) hWF (by simp [SRC_AD])
      refine ⟨({ st with bus := b1 }, w1), ?_⟩
      simp only [rpiUpdateSources, if_pos hlen, if_pos hallT, ho, hw1]
    · rintro ⟨r, hr⟩
      have hlen : d.length = 4 := by
        by_contra hcon
        rw [rpiUpdateSources, if_neg hcon] at hr
        exact Except.noConfusion hr
      have hall : d.all typeIsBool = true := by
        by_contra hcon
        rw [rpiUpdateSources, if_pos hlen, if_neg hcon] at hr
        exact Except.noConfusion hr
      rw [mockUpdateSources, Bool.and_eq_true, beq_iff_eq]
      refine ⟨hlen, List.all_eq_true.mpr fun v hv => ?_⟩
      rw [← typeIsBool_eq_isinstanceBool]
      exact List.all_eq_true.mp hall v hv
  · -- update_zone_vol, hop < 15
    intro st z v hWF hp
    constructor
    · intro hmock
      rw [mockUpdateZoneVol] at hmock
      simp only [Bool.and_eq_true, decide_eq_true_eq] at hmock
      obtain ⟨⟨⟨⟨hz, _⟩, _⟩, hv0⟩, hv79⟩ := hmock
      have h0p : (0 : Int) ≤ Int.tdiv z 6 := Int.tdiv_nonneg hz (by norm_num)
      have haddr : ((Int.tdiv z 6).toNat + 1) * 8 ∈ DEV_ADDRS :=
        List.get?_mem (DEV_ADDRS_get (Int.tdiv z 6).toNat (by omega))
      have htd : Int.tdiv z 6 = z / 6 := Int.tdiv_eq_ediv hz (by norm_num)
      have hreg : ((CH1_ATTEN : Int) + (z - Int.tdiv z 6 * 6)).toNat < 11 := by
        rw [htd]
        simp only [CH1_ATTEN]
        omega
      obtain ⟨b1, w1, hw1, _, _, _⟩ := wbd_ok st.bus (((Int.tdiv z 6).toNat + 1) * 8)
        ((CH1_ATTEN : Int) + (z - Int.tdiv z 6 * 6)).toNat |v| haddr hWF hreg
      refine ⟨({ st with bus := b1 }, w1), ?_⟩
      simp only [rpiUpdateZoneVol, if_pos hz, if_pos hp, if_pos (And.intro hv0 hv79),
        pyIdx_DEV_ADDRS _ h0p hp, hw1]
    · rintro ⟨r, hr⟩
      have hz : 0 ≤ z := by
        by_contra hcon
        simp only [rpiUpdateZoneVol, if_neg hcon] at hr
        exact Except.noConfusion hr
      have hv0 : v ≤ 0 ∧ -79 ≤ v := by
        by_contra hcon
        simp only [rpiUpdateZoneVol, if_pos hz, if_pos hp, if_neg hcon] at hr
        exact Except.noConfusion hr
      have htd : Int.tdiv z 6 = z / 6 := Int.tdiv_eq_ediv hz (by norm_num)
      rw [mockUpdateZoneVol]
      simp only [Bool.and_eq_true, decide_eq_true_eq,
        show Int.ediv z 6 = z / 6 from rfl]
      rw [htd] at hp
      omega
  · -- the hop-15 divergence
    intro v hv79 hv0
    constructor
    · rw [mockUpdateZoneVol]
      simp only [Bool.and_eq_true, decide_eq_true_eq]
      norm_num
      omega
    · intro st
      simp only [rpiUpdateZoneVol, if_pos (by norm_num : (0 : Int) ≤ 90),
        if_neg (by decide : ¬ Int.tdiv 90 6 < 15)]
  · -- update_zone_mutes on in-range boolean windows
    intro st z m hWF hz hp hwlen hall
    have h0p : (0 : Int) ≤ Int.ediv z 6 := Int.ediv_nonneg hz (by norm_num)
    have hwinB : ∀ z' : Nat, z' < 6 →
        ∃ b, pyIdx m (Int.ediv z 6 * 6 + (z' : Int)) = some (.pyBool b) := by
      intro z' hz6
      obtain ⟨v, hv, hvm⟩ := pyIdx_mem_of_lt m (Int.ediv z 6 * 6 + (z' : Int))
        (by omega) (by omega)
      have hty := List.all_eq_true.mp hall v hvm
      cases v with
      | pyBool b => exact ⟨b, hv⟩
      | pyInt n => simp [isinstanceBool] at hty
      | pyNone => simp [isinstanceBool] at hty
    constructor
    · intro hmock
      have hl1 : 6 ≤ m.length := by omega
      have hl2 : m.length % 6 = 0 := by
        rw [mockUpdateZoneMutes, Bool.and_eq_true, Bool.and_eq_true, beq_iff_eq] at hmock
        omega
      obtain ⟨cfg, hcfg⟩ := muteCfgLoop_ok m (Int.ediv z 6) [0, 1, 2, 3, 4, 5] 0x00
        (fun z' hzm => hwinB z' (by fin_cases hzm <;> norm_num))
      have haddr : ((Int.ediv z 6).toNat + 1) * 8 ∈ DEV_ADDRS :=
        List.get?_mem (DEV_ADDRS_get (Int.ediv z 6).toNat (by omega))
      obtain ⟨b1, w1, hw1, hWF1, _, _⟩ := wbd_ok st.bus (((Int.ediv z 6).toNat + 1) * 8)
        MUTE (cfg : Int) haddr hWF (by simp [MUTE])
      by_cases hbm : st.allMuted = allMutedOf m
      · refine ⟨({ st with bus := b1 }, w1), ?_⟩
        simp only [rpiUpdateZoneMutes, if_pos hl1,
          if_pos (show m.length = m.length / 6 * 6 by omega), hcfg,
          pyIdx_DEV_ADDRS _ h0p hp, hw1]
        rw [if_neg (not_not_intro hbm)]
      · obtain ⟨b2, hrun, _, _, _⟩ := standbyLoop_spec
          (if allMutedOf m then (0x00 : Int) else 0x3F) (b1.preamps.map Prod.fst) b1 hWF1
          (fun k hk => lookupA_isSome_of_mem_keys _ _ hk)
        refine ⟨(⟨b2, allMutedOf m⟩, w1 ++ (if b1.mock = true then []
          else (b1.preamps.map Prod.fst).map
            (fun k => (k, STANDBY, if allMutedOf m then (0x00 : Int) else 0x3F)))), ?_⟩
        simp only [rpiUpdateZoneMutes, if_pos hl1,
          if_pos (show m.length = m.length / 6 * 6 by omega), hcfg,
          pyIdx_DEV_ADDRS _ h0p hp, hw1]
        rw [if_pos hbm, hrun]
    · rintro ⟨r, hr⟩
      have hl1 : 6 ≤ m.length := by
        by_contra hcon
        simp only [rpiUpdateZoneMutes, if_neg hcon] at hr
        exact Except.noConfusion hr
      have hl2 : m.length = m.length / 6 * 6 := by
        by_contra hcon
        simp only [rpiUpdateZoneMutes, if_pos hl1, if_neg hcon] at hr
        exact Except.noConfusion hr
      exact mockMutes_of_length_all z m hl1 (by omega) hall
  · -- update_zone_sources on in-range plain-integer windows
    intro st z s hWF hz hp hwlen hall
    have h0p : (0 : Int) ≤ Int.ediv z 6 := Int.ediv_nonneg hz (by norm_num)
    have hwinI : ∀ z' : Nat, z' < 6 →
        ∃ n, pyIdx s (Int.ediv z 6 * 6 + (z' : Int)) = some (.pyInt n) := by
      intro z' hz6
      obtain ⟨v, hv, hvm⟩ := pyIdx_mem_of_lt s (Int.ediv z 6 * 6 + (z' : Int))
        (by omega) (by omega)
      have hty := List.all_eq_true.mp hall v hvm
      cases v with
      | pyInt n => exact ⟨n, hv⟩
      | pyBool b => simp [typeIsInt] at hty
      | pyNone => simp [typeIsInt] at hty
    constructor
    · intro hmock
      have hl1 : 6 ≤ s.length := by omega
      have hl2 : s.length % 6 = 0 := by
        rw [mockUpdateZoneSources, Bool.and_eq_true, Bool.and_eq_true, beq_iff_eq] at hmock
        omega
      obtain ⟨⟨c123, c456⟩, hloop⟩ := srcCfgLoop_ok_int s (Int.ediv z 6) [0, 1, 2, 3, 4, 5]
        0x00 0x00 (fun z' hzm => hwinI z' (by fin_cases hzm <;> norm_num))
      have haddr : ((Int.ediv z 6).toNat + 1) * 8 ∈ DEV_ADDRS :=
        List.get?_mem (DEV_ADDRS_get (Int.ediv z 6).toNat (by omega))
      obtain ⟨b1, w1, hw1, hWF1, _, _⟩ := wbd_ok st.bus (((Int.ediv z 6).toNat + 1) * 8)
        CH123_SRC c123 haddr hWF (by simp [CH123_SRC])
      obtain ⟨b2, w2, hw2, _, _, _⟩ := wbd_ok b1 (((Int.ediv z 6).toNat + 1) * 8)
        CH456_SRC c456 haddr hWF1 (by simp [CH456_SRC])
      refine ⟨({ st with bus := b2 }, w1 ++ w2), ?_⟩
      simp only [rpiUpdateZoneSources, if_pos hl1,
        if_pos (show s.length = s.length / 6 * 6 by omega), hloop,
        pyIdx_DEV_ADDRS _ h0p hp, hw1, hw2]
    · rintro ⟨r, hr⟩
      have hl1 : 6 ≤ s.length := by
        by_contra hcon
        simp only [rpiUpdateZoneSources, if_neg hcon] at hr
        exact Except.noConfusion hr
      have hl2 : s.length = s.length / 6 * 6 := by
        by_contra hcon
        simp only [rpiUpdateZoneSources, if_pos hl1, if_neg hcon] at hr
        exact Except.noConfusion hr
      refine mockSources_of_length_all z s hl1 (by omega) ?_
      refine List.all_eq_true.mpr fun v hv => ?_
      have := List.all_eq_true.mp hall v hv
      cases v with
      | pyInt n => rfl
      | pyBool b => simp [typeIsInt] at this
      | pyNone => simp [typeIsInt] at this

/-- C9 counterexample to the claim as stated: at zone 90 with volume 0,
`Mock.update_zone_vol` accepts (`preamp ≤ 15` passes) while the Rpi
runtime's validation rejects (`preamp < 15` fails), so the two runtimes do
not enforce identical contracts. -/
theorem C9_contracts_counterexample :
    mockUpdateZoneVol 90 0 = true ∧ rpiUpdateZoneVol rpiOneBoard 90 0 = .error () := by
  constructor
  · decide
  · rfl

/-- Witness for C9: concrete agreements on each operation, plus the
boundary zone 89 where both runtimes accept. -/
theorem C9_contracts_witness :
    (∃ r, rpiUpdateSources rpiOneBoard
      [.pyBool true, .pyBool false, .pyBool true, .pyBool false] = .ok r) ∧
    (∃ r, rpiUpdateZoneVol rpiOneBoard 89 (-10) = .ok r) ∧
    (mockUpdateZoneVol 90 (-10) = true ∧
      ∀ st, rpiUpdateZoneVol st 90 (-10) = .error ()) ∧
    (∃ r, rpiUpdateZoneMutes rpiOneBoard 0
      [.pyBool true, .pyBool true, .pyBool true, .pyBool true, .pyBool true,
       .pyBool true] = .ok r) ∧
    (∃ r, rpiUpdateZoneSources rpiOneBoard 0
      [.pyInt 1, .pyInt 2, .pyInt 3, .pyInt 0, .pyInt 1, .pyInt 2] = .ok r) :=
  ⟨(C9_contracts_amended.1 rpiOneBoard
      [.pyBool true, .pyBool false, .pyBool true, .pyBool false] (by decide)).mp (by decide),
   (C9_contracts_amended.2.1 rpiOneBoard 89 (-10) (by decide) (by decide)).mp (by decide),
   C9_contracts_amended.2.2.1 (-10) (by decide) (by decide),
   (C9_contracts_amended.2.2.2.1 rpiOneBoard 0
      [.pyBool true, .pyBool true, .pyBool true, .pyBool true, .pyBool true, .pyBool true]
      (by decide) (by decide) (by decide) (by decide) (by decide)).mp (by decide),
   (C9_contracts_amended.2.2.2.2 rpiOneBoard 0
      [.pyInt 1, .pyInt 2, .pyInt 3, .pyInt 0, .pyInt 1, .pyInt 2]
      (by decide) (by decide) (by decide) (by decide) (by decide)).mp (by decide)⟩

end Amplipi
